import Mathlib

/-!
# Verification of the dual-format metric encoding core of `client_rust`

This development shallowly embeds `src/src/encoding.rs`: the encoder dispatch
façade (a closed tagged union over a text backend and a protobuf backend), the
label trait hierarchy (`EncodeLabelSet` / `EncodeLabel` / `EncodeLabelKey` /
`EncodeLabelValue`) and the object-safe `EncodeMetric` seam.

Embedding conventions:
* `&mut` borrows become explicit state passing: a Rust method
  `fn f(&mut self, ...) -> Result<(), fmt::Error>` becomes a Lean function
  returning `Except FmtError` of the updated state.  A consuming method
  (`self` by value) likewise returns the successor state.  A method whose
  effects flow through a borrowed writer returns the writer's owner once the
  borrow chain ends (`LabelValueEncoder::finish` resumes the label-set
  encoder that lent out its writer).
* The two backend modules (`text`, `protobuf`) are not part of the excerpted
  source; every definition describing them is marked `Modelled from the spec:`
  and follows the specification's description of the backends (§4.4, §4.5).
* Machine integers are `Nat` / `Int`.  An `f64` is carried opaquely as its
  64-bit pattern; its decimal rendering (delegated by the source to the
  external `dtoa` crate) is abstracted as an injective placeholder.
-/

namespace PromClient

/-- `std::fmt::Error`: the single, payload-free formatting/write error kind. -/
structure FmtError where
deriving Repr, DecidableEq

/-- Result type of every encoder operation (`Result<_, std::fmt::Error>`). -/
abbrev FmtResult (α : Type) := Except FmtError α

/-- An IEEE-754 double carried opaquely by its 64-bit pattern.  The façade
only passes `f64` arguments through to a backend, so no arithmetic or decimal
rendering of the value is interpreted here. -/
structure F64 where
  bits : Nat
deriving Repr, DecidableEq

/-- Modelled from the spec: `crate::metrics::MetricType` (not in the excerpt);
§3 lists the metric kinds Counter/Gauge/Histogram/Info/Unknown. -/
inductive MetricType where
  | counter
  | gauge
  | histogram
  | info
  | unknown
deriving Repr, DecidableEq

/-- A label, represented by the sequences of `write_str` fragments its key and
value implementations emit.  An `EncodeLabelKey`/`EncodeLabelValue` implementer
only ever receives `&mut` access to its encoder, so writing a sequence of text
fragments is the complete space of behaviours; the builtin `&str`, `String`
and `Cow<str>` implementations are the one-fragment case. -/
structure LabelProg where
  keyFrags : List String
  valueFrags : List String
deriving Repr, DecidableEq

/-- A label set, in encoding order (`EncodeLabelSet` over slices). -/
abbrev LabelSetProg := List LabelProg

/-- Modelled from the spec: `crate::metrics::exemplar::Exemplar` (not in the
excerpt); §3 describes an exemplar as carrying its own label set and a numeric
value matching the parent metric's numeric domain. -/
structure Exemplar (V : Type) where
  label_set : LabelSetProg
  value : V
deriving Repr, DecidableEq

/-! ## Text backend (modelled)

Modelled from the spec §4.4: the OpenMetrics text exposition backend.  The
caller-supplied sink (`&mut dyn fmt::Write`) is modelled as the list of
fragments it has accepted (the output text is their concatenation) together
with an optional remaining capacity modelling sink exhaustion, the error
condition named in §4.1. -/

/-- Modelled from the spec: the text backend's output sink.  `cap = none` is
an unbounded sink that never fails; `cap = some c` fails a write whose length
exceeds the remaining capacity (sink exhaustion, §4.1/§7). -/
structure TextWriter where
  log : List String
  cap : Option Nat
deriving Repr, DecidableEq

/-- Modelled from the spec: a write into the text sink either accepts the
fragment whole or fails with the single formatting error kind. -/
def TextWriter.write_str (w : TextWriter) (s : String) : FmtResult TextWriter :=
  match w.cap with
  | none => .ok { log := w.log ++ [s], cap := none }
  | some c =>
    if s.length ≤ c then .ok { log := w.log ++ [s], cap := some (c - s.length) }
    else .error {}

/-- Modelled from the spec §4.4: backslash, double quote and newline are
escaped in text label values. -/
def escapeChar (c : Char) : String :=
  if c = '\\' then "\\\\"
  else if c = '"' then "\\\""
  else if c = '\n' then "\\n"
  else String.mk [c]

/-- Escaping of a whole text fragment, character by character. -/
def escapeStr (s : String) : String :=
  String.join (s.data.map escapeChar)

/-- Modelled from the spec: `text::LabelSetEncoder`.  `first` tells whether a
label has been emitted yet, steering the comma separator of the label block. -/
structure TextLabelSetEncoder where
  writer : TextWriter
  first : Bool
deriving Repr, DecidableEq

/-- Modelled from the spec: `text::LabelEncoder`, scoped to one label. -/
structure TextLabelEncoder where
  writer : TextWriter
  first : Bool
deriving Repr, DecidableEq

/-- Modelled from the spec: `text::LabelKeyEncoder`. -/
structure TextLabelKeyEncoder where
  writer : TextWriter
deriving Repr, DecidableEq

/-- Modelled from the spec: `text::LabelValueEncoder`. -/
structure TextLabelValueEncoder where
  writer : TextWriter
deriving Repr, DecidableEq

/-- Modelled from the spec: hand out the encoder for the next label.  The
parent is resumed (with `first := false`) when the label's borrow chain ends
in `finish`. -/
def TextLabelSetEncoder.encode_label (e : TextLabelSetEncoder) : TextLabelEncoder :=
  { writer := e.writer, first := e.first }

/-- Modelled from the spec §4.4: labels of one block are comma-separated, so
beginning any label but the first writes the separator. -/
def TextLabelEncoder.encode_label_key (e : TextLabelEncoder) :
    FmtResult TextLabelKeyEncoder :=
  if e.first then .ok { writer := e.writer }
  else
    match e.writer.write_str "," with
    | .error err => .error err
    | .ok w => .ok { writer := w }

/-- Modelled from the spec: key text is written verbatim. -/
def TextLabelKeyEncoder.write_str (e : TextLabelKeyEncoder) (s : String) :
    FmtResult TextLabelKeyEncoder :=
  match e.writer.write_str s with
  | .error err => .error err
  | .ok w => .ok { writer := w }

/-- Modelled from the spec §4.4: completing the key into a value encoder emits
the `="` that opens the quoted value. -/
def TextLabelKeyEncoder.encode_label_value (e : TextLabelKeyEncoder) :
    FmtResult TextLabelValueEncoder :=
  match e.writer.write_str "=\"" with
  | .error err => .error err
  | .ok w => .ok { writer := w }

/-- Modelled from the spec §4.4: value text is escaped before hitting the sink. -/
def TextLabelValueEncoder.write_str (e : TextLabelValueEncoder) (s : String) :
    FmtResult TextLabelValueEncoder :=
  match e.writer.write_str (escapeStr s) with
  | .error err => .error err
  | .ok w => .ok { writer := w }

/-- Modelled from the spec §4.4: finishing writes the closing quote and ends
the borrow chain, resuming the label-set encoder with `first := false`. -/
def TextLabelValueEncoder.finish (e : TextLabelValueEncoder) :
    FmtResult TextLabelSetEncoder :=
  match e.writer.write_str "\"" with
  | .error err => .error err
  | .ok w => .ok { writer := w, first := false }

/-! ## Protobuf backend (modelled)

Modelled from the spec §4.5: the binary backend builds structured messages in
owned buffers; encoding is purely additive/constructive and its owned-buffer
writes cannot fail. -/

/-- Modelled from the spec: one completed (name, value) label pair of the
binary message. -/
structure PbLabel where
  name : String
  value : String
deriving Repr, DecidableEq

/-- Modelled from the spec: an exemplar sub-message with its own label pairs
and numeric value. -/
structure PbExemplar (V : Type) where
  labels : List PbLabel
  value : V
deriving Repr, DecidableEq

/-- Modelled from the spec: the kind-specific payload of one metric message. -/
inductive PbPayload where
  | counterF64 (v : F64) (ex : Option (PbExemplar F64))
  | counterU64 (v : Nat) (ex : Option (PbExemplar Nat))
  | gaugeI64 (v : Int)
  | gaugeF64 (v : F64)
  | info (labels : List PbLabel)
  | histogram (sum : F64) (count : Nat) (buckets : List (F64 × Nat))
      (exs : List (Nat × PbExemplar F64))
deriving Repr, DecidableEq

/-- Modelled from the spec: one metric message, carrying its label pairs and a
kind-specific payload. -/
structure PbSample where
  labels : List PbLabel
  payload : PbPayload
deriving Repr, DecidableEq

/-- Modelled from the spec: `protobuf::MetricEncoder` scoped to one family;
it carries the family's accumulated label pairs and the messages built so far. -/
structure PbMetricEncoder where
  family_labels : List PbLabel
  msgs : List PbSample
deriving Repr, DecidableEq

/-- Modelled from the spec: `protobuf::LabelSetEncoder`, accumulating pairs. -/
structure PbLabelSetEncoder where
  labels : List PbLabel
deriving Repr, DecidableEq

/-- Modelled from the spec: `protobuf::LabelEncoder`. -/
structure PbLabelEncoder where
  labels : List PbLabel
deriving Repr, DecidableEq

/-- Modelled from the spec: `protobuf::LabelKeyEncoder`, buffering key text. -/
structure PbLabelKeyEncoder where
  labels : List PbLabel
  key : String
deriving Repr, DecidableEq

/-- Modelled from the spec: `protobuf::LabelValueEncoder`, buffering the value
text of the pair opened by the completed key. -/
structure PbLabelValueEncoder where
  labels : List PbLabel
  key : String
  value : String
deriving Repr, DecidableEq

/-- Modelled from the spec: hand out the encoder for the next label pair. -/
def PbLabelSetEncoder.encode_label (e : PbLabelSetEncoder) : PbLabelEncoder :=
  { labels := e.labels }

/-- Modelled from the spec: begin a key, with an empty key buffer. -/
def PbLabelEncoder.encode_label_key (e : PbLabelEncoder) :
    FmtResult PbLabelKeyEncoder :=
  .ok { labels := e.labels, key := "" }

/-- Modelled from the spec: key fragments accumulate in the owned key buffer. -/
def PbLabelKeyEncoder.write_str (e : PbLabelKeyEncoder) (s : String) :
    FmtResult PbLabelKeyEncoder :=
  .ok { e with key := e.key ++ s }

/-- Modelled from the spec: completing the key opens an empty value buffer. -/
def PbLabelKeyEncoder.encode_label_value (e : PbLabelKeyEncoder) :
    FmtResult PbLabelValueEncoder :=
  .ok { labels := e.labels, key := e.key, value := "" }

/-- Modelled from the spec: value fragments accumulate in the value buffer. -/
def PbLabelValueEncoder.write_str (e : PbLabelValueEncoder) (s : String) :
    FmtResult PbLabelValueEncoder :=
  .ok { e with value := e.value ++ s }

/-- Modelled from the spec: finishing commits the completed (key, value) pair
onto the label list and resumes the label-set encoder. -/
def PbLabelValueEncoder.finish (e : PbLabelValueEncoder) :
    FmtResult PbLabelSetEncoder :=
  .ok { labels := e.labels ++ [{ name := e.key, value := e.value }] }

/-! ## Rendering helpers shared by the modelled text metric encoder -/

/-- The decimal digit character of `d < 10`. -/
def digitChar (d : Nat) : Char := Char.ofNat (48 + d)

/-- Modelled from the spec: the external `itoa` crate's rendering of an
unsigned integer — the language-neutral base-10 decimal text, no leading
zeros, no grouping, no sign (§4.1, §8). -/
def itoaFormat (n : Nat) : String :=
  if n = 0 then "0" else String.mk ((Nat.digits 10 n).reverse.map digitChar)

/-- Modelled from the spec: placeholder for the external `dtoa` crate's
shortest round-trip decimal rendering of a double.  The crate is not part of
this repository; the rendering is abstracted as an injective function of the
64-bit pattern, and no theorem below depends on its text. -/
def f64Str (v : F64) : String := "f64[" ++ Nat.repr v.bits ++ "]"

/-- Modelled from the spec §4.4: one `key="value"` item of a label block. -/
def renderLabel (l : LabelProg) : String :=
  String.join l.keyFrags ++ "=\"" ++ escapeStr (String.join l.valueFrags) ++ "\""

/-- Modelled from the spec §4.4/§8: an empty label set emits no block at all;
a non-empty one is brace-delimited and comma-separated. -/
def renderLabelBlock (ls : LabelSetProg) : String :=
  match ls with
  | [] => ""
  | _ => "\x7b" ++ String.intercalate "," (ls.map renderLabel) ++ "\x7d"

/-- Modelled from the spec §4.2: the trailing text exemplar annotation of a
double-valued sample (`# \x7b...\x7d value`), empty when absent. -/
def exemplarSuffixF64 (ex : Option (Exemplar F64)) : String :=
  match ex with
  | none => ""
  | some ex => " # " ++ renderLabelBlock ex.label_set ++ " " ++ f64Str ex.value

/-- Modelled from the spec §4.2: the trailing text exemplar annotation of an
integer-valued counter sample. -/
def exemplarSuffixU64 (ex : Option (Exemplar Nat)) : String :=
  match ex with
  | none => ""
  | some ex => " # " ++ renderLabelBlock ex.label_set ++ " " ++ itoaFormat ex.value

/-! ## Text backend metric encoder (modelled) -/

/-- Modelled from the spec: `text::MetricEncoder`, scoped to one family: the
sink, the family name and the label scope accumulated by `encode_family`. -/
structure TextMetricEncoder where
  writer : TextWriter
  name : String
  labels : LabelSetProg
deriving Repr, DecidableEq

/-- Write one sample line `name<block> <rest>` for this family (§4.4). -/
def TextMetricEncoder.write_sample (e : TextMetricEncoder) (suffix : String)
    (rest : String) : FmtResult TextMetricEncoder :=
  match e.writer.write_str
      (e.name ++ suffix ++ renderLabelBlock e.labels ++ " " ++ rest ++ "\n") with
  | .error err => .error err
  | .ok w => .ok { e with writer := w }

/-- Modelled from the spec §4.2/§4.4: a double counter sample with optional
trailing exemplar annotation. -/
def TextMetricEncoder.encode_counter_f64 (e : TextMetricEncoder) (v : F64)
    (ex : Option (Exemplar F64)) : FmtResult TextMetricEncoder :=
  e.write_sample "_total" (f64Str v ++ exemplarSuffixF64 ex)

/-- Modelled from the spec §4.2/§4.4: an integer counter sample with optional
trailing exemplar annotation. -/
def TextMetricEncoder.encode_counter_u64 (e : TextMetricEncoder) (v : Nat)
    (ex : Option (Exemplar Nat)) : FmtResult TextMetricEncoder :=
  e.write_sample "_total" (itoaFormat v ++ exemplarSuffixU64 ex)

/-- Modelled from the spec §4.2: a single instantaneous integer gauge value. -/
def TextMetricEncoder.encode_gauge_i64 (e : TextMetricEncoder) (v : Int) :
    FmtResult TextMetricEncoder :=
  e.write_sample "" (toString v)

/-- Modelled from the spec §4.2: a single instantaneous double gauge value. -/
def TextMetricEncoder.encode_gauge_f64 (e : TextMetricEncoder) (v : F64) :
    FmtResult TextMetricEncoder :=
  e.write_sample "" (f64Str v)

/-- Modelled from the spec §4.2: an info sample whose value is conventionally
1 and whose substance is its label set. -/
def TextMetricEncoder.encode_info (e : TextMetricEncoder) (ls : LabelSetProg) :
    FmtResult TextMetricEncoder :=
  match e.writer.write_str
      (e.name ++ "_info" ++ renderLabelBlock (e.labels ++ ls) ++ " 1\n") with
  | .error err => .error err
  | .ok w => .ok { e with writer := w }

/-- One `_bucket` line with its cumulative count and optional exemplar (§4.2). -/
def bucketLine (name : String) (famBlock : String) (idx : Nat) (b : F64 × Nat)
    (exs : Option (List (Nat × Exemplar F64))) : String :=
  name ++ "_bucket" ++ famBlock ++ " le=\"" ++ f64Str b.1 ++ "\" " ++
    itoaFormat b.2 ++
    exemplarSuffixF64 ((exs.getD []).lookup idx) ++ "\n"

/-- Modelled from the spec §4.2: sum, count, then each bucket in the supplied
order, attaching exemplars keyed by bucket index. -/
def TextMetricEncoder.encode_histogram (e : TextMetricEncoder) (sum : F64)
    (count : Nat) (buckets : List (F64 × Nat))
    (exs : Option (List (Nat × Exemplar F64))) : FmtResult TextMetricEncoder :=
  let famBlock := renderLabelBlock e.labels
  match e.writer.write_str
      (e.name ++ "_sum" ++ famBlock ++ " " ++ f64Str sum ++ "\n" ++
       e.name ++ "_count" ++ famBlock ++ " " ++ itoaFormat count ++ "\n" ++
       String.join (buckets.enum.map fun p =>
         bucketLine e.name famBlock p.1 p.2 exs)) with
  | .error err => .error err
  | .ok w => .ok { e with writer := w }

/-- Modelled from the spec §4.2: open a nested encoder scoped to one label-set
instance of the family, widening the label scope. -/
def TextMetricEncoder.encode_family (e : TextMetricEncoder) (ls : LabelSetProg) :
    FmtResult TextMetricEncoder :=
  .ok { e with labels := e.labels ++ ls }

/-! ## Protobuf backend metric encoder (modelled) -/

/-- Modelled from the spec: a label program rendered into the binary pair —
the concatenations of the key and value fragments, unescaped. -/
def pbRenderLabel (l : LabelProg) : PbLabel :=
  { name := String.join l.keyFrags, value := String.join l.valueFrags }

/-- Modelled from the spec: rendering of a whole label set into binary pairs
(an empty set becomes the empty label list, §8). -/
def pbRenderLabelSet (ls : LabelSetProg) : List PbLabel :=
  ls.map pbRenderLabel

/-- Modelled from the spec: an exemplar rendered into its binary sub-message. -/
def pbRenderExemplar {V : Type} (ex : Exemplar V) : PbExemplar V :=
  { labels := pbRenderLabelSet ex.label_set, value := ex.value }

/-- Append one metric message carrying the family's label pairs (§4.5). -/
def PbMetricEncoder.push (e : PbMetricEncoder) (p : PbPayload) :
    FmtResult PbMetricEncoder :=
  .ok { e with msgs := e.msgs ++ [{ labels := e.family_labels, payload := p }] }

/-- Modelled from the spec §4.5: a double counter message with nested exemplar. -/
def PbMetricEncoder.encode_counter_f64 (e : PbMetricEncoder) (v : F64)
    (ex : Option (Exemplar F64)) : FmtResult PbMetricEncoder :=
  e.push (.counterF64 v (ex.map pbRenderExemplar))

/-- Modelled from the spec §4.5: an integer counter message with nested exemplar. -/
def PbMetricEncoder.encode_counter_u64 (e : PbMetricEncoder) (v : Nat)
    (ex : Option (Exemplar Nat)) : FmtResult PbMetricEncoder :=
  e.push (.counterU64 v (ex.map pbRenderExemplar))

/-- Modelled from the spec §4.5: an integer gauge message. -/
def PbMetricEncoder.encode_gauge_i64 (e : PbMetricEncoder) (v : Int) :
    FmtResult PbMetricEncoder :=
  e.push (.gaugeI64 v)

/-- Modelled from the spec §4.5: a double gauge message. -/
def PbMetricEncoder.encode_gauge_f64 (e : PbMetricEncoder) (v : F64) :
    FmtResult PbMetricEncoder :=
  e.push (.gaugeF64 v)

/-- Modelled from the spec §4.5: an info message carrying its label set. -/
def PbMetricEncoder.encode_info (e : PbMetricEncoder) (ls : LabelSetProg) :
    FmtResult PbMetricEncoder :=
  e.push (.info (pbRenderLabelSet ls))

/-- Modelled from the spec §4.5: a histogram message with sum, count, buckets
in the supplied order and exemplars keyed by bucket index. -/
def PbMetricEncoder.encode_histogram (e : PbMetricEncoder) (sum : F64)
    (count : Nat) (buckets : List (F64 × Nat))
    (exs : Option (List (Nat × Exemplar F64))) : FmtResult PbMetricEncoder :=
  e.push (.histogram sum count buckets
    ((exs.getD []).map fun p => (p.1, pbRenderExemplar p.2)))

/-- Modelled from the spec §4.2/§4.5: open a nested encoder for one label-set
instance of the family, widening the family's label pairs. -/
def PbMetricEncoder.encode_family (e : PbMetricEncoder) (ls : LabelSetProg) :
    FmtResult PbMetricEncoder :=
  .ok { e with family_labels := e.family_labels ++ pbRenderLabelSet ls }

/-! ## Encoder dispatch façade (from `src/src/encoding.rs`)

Each façade type is a tuple struct wrapping a closed tagged union over the two
backends; every operation expands the `for_both!`/`for_both_mut!` macro: match
on the active backend, forward the arguments unchanged, wrap the result back
into the façade type (`.map Into::into` where the source does). -/

/-- `enum MetricEncoderInner` (encoding.rs:48–54). -/
inductive MetricEncoderInner where
  | text (e : TextMetricEncoder)
  | protobuf (e : PbMetricEncoder)
deriving Repr, DecidableEq

/-- `pub struct MetricEncoder(MetricEncoderInner)` (encoding.rs:46). -/
structure MetricEncoder where
  inner : MetricEncoderInner
deriving Repr, DecidableEq

/-- `impl From<text::MetricEncoder> for MetricEncoder` (encoding.rs:56–60). -/
def MetricEncoder.ofText (e : TextMetricEncoder) : MetricEncoder :=
  ⟨.text e⟩

/-- `impl From<protobuf::MetricEncoder> for MetricEncoder` (encoding.rs:62–67). -/
def MetricEncoder.ofProtobuf (e : PbMetricEncoder) : MetricEncoder :=
  ⟨.protobuf e⟩

/-- `MetricEncoder::encode_counter_f64` (encoding.rs:91–102): forward to the
active backend.  The label-set type parameter `S` is instantiated at the
fragment-program representation throughout this development. -/
def MetricEncoder.encode_counter_f64 (m : MetricEncoder) (v : F64)
    (ex : Option (Exemplar F64)) : FmtResult MetricEncoder :=
  match m.inner with
  | .text e => (e.encode_counter_f64 v ex).map MetricEncoder.ofText
  | .protobuf e => (e.encode_counter_f64 v ex).map MetricEncoder.ofProtobuf

/-- `MetricEncoder::encode_counter_u64` (encoding.rs:105–116). -/
def MetricEncoder.encode_counter_u64 (m : MetricEncoder) (v : Nat)
    (ex : Option (Exemplar Nat)) : FmtResult MetricEncoder :=
  match m.inner with
  | .text e => (e.encode_counter_u64 v ex).map MetricEncoder.ofText
  | .protobuf e => (e.encode_counter_u64 v ex).map MetricEncoder.ofProtobuf

/-- `MetricEncoder::encode_gauge_i64` (encoding.rs:119–121). -/
def MetricEncoder.encode_gauge_i64 (m : MetricEncoder) (v : Int) :
    FmtResult MetricEncoder :=
  match m.inner with
  | .text e => (e.encode_gauge_i64 v).map MetricEncoder.ofText
  | .protobuf e => (e.encode_gauge_i64 v).map MetricEncoder.ofProtobuf

/-- `MetricEncoder::encode_gauge_f64` (encoding.rs:124–126). -/
def MetricEncoder.encode_gauge_f64 (m : MetricEncoder) (v : F64) :
    FmtResult MetricEncoder :=
  match m.inner with
  | .text e => (e.encode_gauge_f64 v).map MetricEncoder.ofText
  | .protobuf e => (e.encode_gauge_f64 v).map MetricEncoder.ofProtobuf

/-- `MetricEncoder::encode_info` (encoding.rs:129–131). -/
def MetricEncoder.encode_info (m : MetricEncoder) (ls : LabelSetProg) :
    FmtResult MetricEncoder :=
  match m.inner with
  | .text e => (e.encode_info ls).map MetricEncoder.ofText
  | .protobuf e => (e.encode_info ls).map MetricEncoder.ofProtobuf

/-- `MetricEncoder::encode_histogram` (encoding.rs:134–147).  The source's
`HashMap<usize, Exemplar>` argument is carried as an association list. -/
def MetricEncoder.encode_histogram (m : MetricEncoder) (sum : F64) (count : Nat)
    (buckets : List (F64 × Nat)) (exs : Option (List (Nat × Exemplar F64))) :
    FmtResult MetricEncoder :=
  match m.inner with
  | .text e => (e.encode_histogram sum count buckets exs).map MetricEncoder.ofText
  | .protobuf e =>
    (e.encode_histogram sum count buckets exs).map MetricEncoder.ofProtobuf

/-- `MetricEncoder::encode_family` (encoding.rs:150–160): forward, re-wrapping
the nested backend encoder into the façade via `.map(Into::into)`. -/
def MetricEncoder.encode_family (m : MetricEncoder) (ls : LabelSetProg) :
    FmtResult MetricEncoder :=
  match m.inner with
  | .text e => (e.encode_family ls).map MetricEncoder.ofText
  | .protobuf e => (e.encode_family ls).map MetricEncoder.ofProtobuf

/-- `enum LabelSetEncoderInner` (encoding.rs:179–184). -/
inductive LabelSetEncoderInner where
  | text (e : TextLabelSetEncoder)
  | protobuf (e : PbLabelSetEncoder)
deriving Repr, DecidableEq

/-- `pub struct LabelSetEncoder(LabelSetEncoderInner)` (encoding.rs:177). -/
structure LabelSetEncoder where
  inner : LabelSetEncoderInner
deriving Repr, DecidableEq

/-- `impl From<text::LabelSetEncoder>` (encoding.rs:169–173). -/
def LabelSetEncoder.ofText (e : TextLabelSetEncoder) : LabelSetEncoder :=
  ⟨.text e⟩

/-- `impl From<protobuf::LabelSetEncoder>` (encoding.rs:186–191). -/
def LabelSetEncoder.ofProtobuf (e : PbLabelSetEncoder) : LabelSetEncoder :=
  ⟨.protobuf e⟩

/-- `enum LabelEncoderInner` (encoding.rs:210–215). -/
inductive LabelEncoderInner where
  | text (e : TextLabelEncoder)
  | protobuf (e : PbLabelEncoder)
deriving Repr, DecidableEq

/-- `pub struct LabelEncoder(LabelEncoderInner)` (encoding.rs:208). -/
structure LabelEncoder where
  inner : LabelEncoderInner
deriving Repr, DecidableEq

/-- `impl From<text::LabelEncoder>` (encoding.rs:217–221). -/
def LabelEncoder.ofText (e : TextLabelEncoder) : LabelEncoder :=
  ⟨.text e⟩

/-- `impl From<protobuf::LabelEncoder>` (encoding.rs:223–228). -/
def LabelEncoder.ofProtobuf (e : PbLabelEncoder) : LabelEncoder :=
  ⟨.protobuf e⟩

/-- `LabelSetEncoder::encode_label` (encoding.rs:193–198): forward, wrapping
the backend's label encoder back into the façade. -/
def LabelSetEncoder.encode_label (e : LabelSetEncoder) : LabelEncoder :=
  match e.inner with
  | .text e => LabelEncoder.ofText e.encode_label
  | .protobuf e => LabelEncoder.ofProtobuf e.encode_label

/-- `enum LabelKeyEncoderInner` (encoding.rs:252–257). -/
inductive LabelKeyEncoderInner where
  | text (e : TextLabelKeyEncoder)
  | protobuf (e : PbLabelKeyEncoder)
deriving Repr, DecidableEq

/-- `pub struct LabelKeyEncoder(LabelKeyEncoderInner)` (encoding.rs:250). -/
structure LabelKeyEncoder where
  inner : LabelKeyEncoderInner
deriving Repr, DecidableEq

/-- `impl From<text::LabelKeyEncoder>` (encoding.rs:259–263). -/
def LabelKeyEncoder.ofText (e : TextLabelKeyEncoder) : LabelKeyEncoder :=
  ⟨.text e⟩

/-- `impl From<protobuf::LabelKeyEncoder>` (encoding.rs:265–270). -/
def LabelKeyEncoder.ofProtobuf (e : PbLabelKeyEncoder) : LabelKeyEncoder :=
  ⟨.protobuf e⟩

/-- `LabelEncoder::encode_label_key` (encoding.rs:230–240). -/
def LabelEncoder.encode_label_key (e : LabelEncoder) : FmtResult LabelKeyEncoder :=
  match e.inner with
  | .text e => e.encode_label_key.map LabelKeyEncoder.ofText
  | .protobuf e => e.encode_label_key.map LabelKeyEncoder.ofProtobuf

/-- `impl fmt::Write for LabelKeyEncoder` (encoding.rs:272–276). -/
def LabelKeyEncoder.write_str (e : LabelKeyEncoder) (s : String) :
    FmtResult LabelKeyEncoder :=
  match e.inner with
  | .text e => (e.write_str s).map LabelKeyEncoder.ofText
  | .protobuf e => (e.write_str s).map LabelKeyEncoder.ofProtobuf

/-- `enum LabelValueEncoderInner` (encoding.rs:313–318). -/
inductive LabelValueEncoderInner where
  | text (e : TextLabelValueEncoder)
  | protobuf (e : PbLabelValueEncoder)
deriving Repr, DecidableEq

/-- `pub struct LabelValueEncoder(LabelValueEncoderInner)` (encoding.rs:298). -/
structure LabelValueEncoder where
  inner : LabelValueEncoderInner
deriving Repr, DecidableEq

/-- `impl From<text::LabelValueEncoder>` (encoding.rs:300–304). -/
def LabelValueEncoder.ofText (e : TextLabelValueEncoder) : LabelValueEncoder :=
  ⟨.text e⟩

/-- `impl From<protobuf::LabelValueEncoder>` (encoding.rs:306–311). -/
def LabelValueEncoder.ofProtobuf (e : PbLabelValueEncoder) : LabelValueEncoder :=
  ⟨.protobuf e⟩

/-- `LabelKeyEncoder::encode_label_value` (encoding.rs:278–288): consumes the
key encoder (`self` by value) and yields the value encoder. -/
def LabelKeyEncoder.encode_label_value (e : LabelKeyEncoder) :
    FmtResult LabelValueEncoder :=
  match e.inner with
  | .text e => e.encode_label_value.map LabelValueEncoder.ofText
  | .protobuf e => e.encode_label_value.map LabelValueEncoder.ofProtobuf

/-- `impl fmt::Write for LabelValueEncoder` (encoding.rs:327–331). -/
def LabelValueEncoder.write_str (e : LabelValueEncoder) (s : String) :
    FmtResult LabelValueEncoder :=
  match e.inner with
  | .text e => (e.write_str s).map LabelValueEncoder.ofText
  | .protobuf e => (e.write_str s).map LabelValueEncoder.ofProtobuf

/-- `LabelValueEncoder::finish` (encoding.rs:320–325): consumes the value
encoder; the only way to release it.  In state-passing form the ended borrow
chain resumes the label-set encoder. -/
def LabelValueEncoder.finish (e : LabelValueEncoder) : FmtResult LabelSetEncoder :=
  match e.inner with
  | .text e => e.finish.map LabelSetEncoder.ofText
  | .protobuf e => e.finish.map LabelSetEncoder.ofProtobuf

/-! ## Backend tags -/

/-- Which wire-format backend a façade value is currently carrying. -/
inductive Backend where
  | text
  | protobuf
deriving Repr, DecidableEq

/-- Backend tag of a metric encoder façade. -/
def MetricEncoder.backend (m : MetricEncoder) : Backend :=
  match m.inner with
  | .text _ => .text
  | .protobuf _ => .protobuf

/-- Backend tag of a label-set encoder façade. -/
def LabelSetEncoder.backend (e : LabelSetEncoder) : Backend :=
  match e.inner with
  | .text _ => .text
  | .protobuf _ => .protobuf

/-- Backend tag of a label encoder façade. -/
def LabelEncoder.backend (e : LabelEncoder) : Backend :=
  match e.inner with
  | .text _ => .text
  | .protobuf _ => .protobuf

/-- Backend tag of a label-key encoder façade. -/
def LabelKeyEncoder.backend (e : LabelKeyEncoder) : Backend :=
  match e.inner with
  | .text _ => .text
  | .protobuf _ => .protobuf

/-- Backend tag of a label-value encoder façade. -/
def LabelValueEncoder.backend (e : LabelValueEncoder) : Backend :=
  match e.inner with
  | .text _ => .text
  | .protobuf _ => .protobuf

/-! ## Label trait implementations (from `src/src/encoding.rs`) -/

/-- `impl EncodeLabelKey for &str` (encoding.rs:380–385): a single `write_str`
of the text.  (`String` and `Cow<str>` delegate to this implementation.) -/
def encodeLabelKey_str (s : String) (e : LabelKeyEncoder) :
    FmtResult LabelKeyEncoder :=
  e.write_str s

/-- `impl EncodeLabelValue for &str` (encoding.rs:386–391).  (`String` and
`Cow<str>` delegate to this implementation.) -/
def encodeLabelValue_str (s : String) (e : LabelValueEncoder) :
    FmtResult LabelValueEncoder :=
  e.write_str s

/-- `impl EncodeLabelValue for u64` (encoding.rs:422–425): one `write_str` of
the `itoa` rendering of the value. -/
def encodeLabelValue_u64 (v : Nat) (e : LabelValueEncoder) :
    FmtResult LabelValueEncoder :=
  e.write_str (itoaFormat v)

/-- The general shape of an `EncodeLabelKey` implementation: a sequence of
`write_str` calls through the `&mut` key encoder, aborting at the first
failing write. -/
def encodeKeyProg : List String → LabelKeyEncoder → FmtResult LabelKeyEncoder
  | [], e => .ok e
  | s :: rest, e =>
    match e.write_str s with
    | .error err => .error err
    | .ok e' => encodeKeyProg rest e'

/-- The general shape of an `EncodeLabelValue` implementation: a sequence of
`write_str` calls through the `&mut` value encoder. -/
def encodeValueProg : List String → LabelValueEncoder → FmtResult LabelValueEncoder
  | [], e => .ok e
  | s :: rest, e =>
    match e.write_str s with
    | .error err => .error err
    | .ok e' => encodeValueProg rest e'

/-- `impl<K: EncodeLabelKey, V: EncodeLabelValue> EncodeLabel for (K, V)`
(encoding.rs:365–378), generic over the key and value writers: produce the key
encoder, write the key, convert to the value encoder, write the value, finish;
`?` aborts at the first error.  The final `finish` ends the borrow chain,
resuming the label-set encoder. -/
def encodeLabel_generic (encK : LabelKeyEncoder → FmtResult LabelKeyEncoder)
    (encV : LabelValueEncoder → FmtResult LabelValueEncoder)
    (encoder : LabelEncoder) : FmtResult LabelSetEncoder :=
  match encoder.encode_label_key with
  | .error err => .error err
  | .ok lke =>
    match encK lke with
    | .error err => .error err
    | .ok lke =>
      match lke.encode_label_value with
      | .error err => .error err
      | .ok lve =>
        match encV lve with
        | .error err => .error err
        | .ok lve => lve.finish

/-- The pair implementation instantiated at fragment-program labels. -/
def encodeLabel_prog (l : LabelProg) (e : LabelEncoder) : FmtResult LabelSetEncoder :=
  encodeLabel_generic (encodeKeyProg l.keyFrags) (encodeValueProg l.valueFrags) e

/-- The `for label in self.iter() \x7b label.encode(encoder.encode_label())? \x7d`
loop of the slice implementation (encoding.rs:345–347), generic over the
element type's `EncodeLabel` implementation. -/
def encodeLabelSet_go {α : Type} (encL : α → LabelEncoder → FmtResult LabelSetEncoder) :
    List α → LabelSetEncoder → FmtResult LabelSetEncoder
  | [], enc => .ok enc
  | l :: rest, enc =>
    match encL l enc.encode_label with
    | .error err => .error err
    | .ok enc' => encodeLabelSet_go encL rest enc'

/-- `impl<T: EncodeLabel> EncodeLabelSet for &[T]` (encoding.rs:339–351):
empty slices return `Ok(())` up front; otherwise each label is encoded in
iteration order. -/
def encodeLabelSet_slice {α : Type}
    (encL : α → LabelEncoder → FmtResult LabelSetEncoder) (ls : List α)
    (enc : LabelSetEncoder) : FmtResult LabelSetEncoder :=
  if ls.isEmpty then .ok enc
  else encodeLabelSet_go encL ls enc

/-- `impl<T: EncodeLabel> EncodeLabelSet for Vec<T>` (encoding.rs:353–357):
delegates to the slice implementation via `as_slice`. -/
def encodeLabelSet_vec {α : Type}
    (encL : α → LabelEncoder → FmtResult LabelSetEncoder) (v : List α)
    (enc : LabelSetEncoder) : FmtResult LabelSetEncoder :=
  encodeLabelSet_slice encL v enc

/-- A Rust fixed-size array `[T; N]`: a list with a length fact. -/
structure RustArray (α : Type) (n : Nat) where
  data : List α
  len_eq : data.length = n

/-- `impl<T: EncodeLabel, const N: usize> EncodeLabelSet for [T; N]`
(encoding.rs:333–337): delegates to the slice implementation via `as_ref`. -/
def encodeLabelSet_array {α : Type} {n : Nat}
    (encL : α → LabelEncoder → FmtResult LabelSetEncoder) (a : RustArray α n)
    (enc : LabelSetEncoder) : FmtResult LabelSetEncoder :=
  encodeLabelSet_slice encL a.data enc

/-- `impl EncodeLabelSet for ()` (encoding.rs:359–363): `Ok(())`, the encoder
untouched. -/
def encodeLabelSet_unit (_u : Unit) (enc : LabelSetEncoder) :
    FmtResult LabelSetEncoder :=
  .ok enc

/-! ## `EncodeMetric` and the boxed seam (from `src/src/encoding.rs`) -/

/-- A `dyn EncodeMetric` trait object: its two method implementations
(encoding.rs:17–25).  `metric_type` is a constant per instance, matching the
object-safe signature that takes only `&self`. -/
structure DynEncodeMetric where
  encode : MetricEncoder → FmtResult MetricEncoder
  metric_type : MetricType

/-- `Box<dyn EncodeMetric>`: an owned trait object, reached through `deref`. -/
structure BoxedEncodeMetric where
  deref : DynEncodeMetric

/-- `impl EncodeMetric for Box<dyn EncodeMetric>`, `encode` (encoding.rs:28–30). -/
def BoxedEncodeMetric.encode (b : BoxedEncodeMetric) (enc : MetricEncoder) :
    FmtResult MetricEncoder :=
  b.deref.encode enc

/-- `impl EncodeMetric for Box<dyn EncodeMetric>`, `metric_type`
(encoding.rs:32–34). -/
def BoxedEncodeMetric.metric_type (b : BoxedEncodeMetric) : MetricType :=
  b.deref.metric_type

/-! ## Derived trace functions

Closed-form descriptions of what the label pipeline appends, as functions of
the label data alone.  These are the yardsticks the claim theorems compare
the embedded code against. -/

/-- The fragments one label pair appends to the text sink: the comma separator
(absent for the first label of a block), the key fragments verbatim, the `="`
marker emitted when the key encoder is completed into a value encoder, the
escaped value fragments, and the closing quote written by `finish`. -/
def labelPairLog (first : Bool) (ks vs : List String) : List String :=
  (if first then [] else [","]) ++ ks ++ ["=\""] ++ vs.map escapeStr ++ ["\""]

/-- The fragments a whole label set appends to the text sink. -/
def labelSetLogGo : Bool → LabelSetProg → List String
  | _, [] => []
  | b, l :: rest => labelPairLog b l.keyFrags l.valueFrags ++ labelSetLogGo false rest

/-- The fragments a label set appends starting from a fresh block. -/
def labelSetLog (ls : LabelSetProg) : List String :=
  labelSetLogGo true ls

/-! ## Pipeline lemmas: text backend on an unbounded sink -/

theorem encodeKeyProg_text (ks : List String) (p : List String) :
    encodeKeyProg ks (LabelKeyEncoder.ofText ⟨⟨p, none⟩⟩) =
      .ok (LabelKeyEncoder.ofText ⟨⟨p ++ ks, none⟩⟩) := by
  induction ks generalizing p with
  | nil => simp [encodeKeyProg]
  | cons s rest ih =>
    simp only [encodeKeyProg, LabelKeyEncoder.write_str, LabelKeyEncoder.ofText,
      TextLabelKeyEncoder.write_str, TextWriter.write_str, Except.map]
    simpa [LabelKeyEncoder.ofText] using ih (p ++ [s])

theorem encodeValueProg_text (vs : List String) (p : List String) :
    encodeValueProg vs (LabelValueEncoder.ofText ⟨⟨p, none⟩⟩) =
      .ok (LabelValueEncoder.ofText ⟨⟨p ++ vs.map escapeStr, none⟩⟩) := by
  induction vs generalizing p with
  | nil => simp [encodeValueProg]
  | cons s rest ih =>
    simp only [encodeValueProg, LabelValueEncoder.write_str, LabelValueEncoder.ofText,
      TextLabelValueEncoder.write_str, TextWriter.write_str, Except.map]
    simpa [LabelValueEncoder.ofText] using ih (p ++ [escapeStr s])

theorem encodeLabel_prog_text (l : LabelProg) (p : List String) (b : Bool) :
    encodeLabel_prog l (LabelEncoder.ofText ⟨⟨p, none⟩, b⟩) =
      .ok (LabelSetEncoder.ofText
        ⟨⟨p ++ labelPairLog b l.keyFrags l.valueFrags, none⟩, false⟩) := by
  unfold encodeLabel_prog encodeLabel_generic
  cases b with
  | true =>
    simp only [LabelEncoder.encode_label_key, LabelEncoder.ofText,
      TextLabelEncoder.encode_label_key, if_true, Except.map]
    rw [encodeKeyProg_text]
    simp only [LabelKeyEncoder.encode_label_value, LabelKeyEncoder.ofText,
      TextLabelKeyEncoder.encode_label_value, TextWriter.write_str, Except.map]
    rw [encodeValueProg_text]
    simp only [LabelValueEncoder.finish, LabelValueEncoder.ofText,
      TextLabelValueEncoder.finish, TextWriter.write_str, Except.map]
    simp [labelPairLog]
  | false =>
    simp only [LabelEncoder.encode_label_key, LabelEncoder.ofText,
      TextLabelEncoder.encode_label_key, if_false, TextWriter.write_str, Except.map,
      Bool.false_eq_true]
    rw [encodeKeyProg_text]
    simp only [LabelKeyEncoder.encode_label_value, LabelKeyEncoder.ofText,
      TextLabelKeyEncoder.encode_label_value, TextWriter.write_str, Except.map]
    rw [encodeValueProg_text]
    simp only [LabelValueEncoder.finish, LabelValueEncoder.ofText,
      TextLabelValueEncoder.finish, TextWriter.write_str, Except.map]
    simp [labelPairLog]

theorem encodeLabelSet_go_text (ls : LabelSetProg) (p : List String) (b : Bool) :
    encodeLabelSet_go encodeLabel_prog ls (LabelSetEncoder.ofText ⟨⟨p, none⟩, b⟩) =
      .ok (LabelSetEncoder.ofText
        ⟨⟨p ++ labelSetLogGo b ls, none⟩, if ls.isEmpty then b else false⟩) := by
  induction ls generalizing p b with
  | nil => simp [encodeLabelSet_go, labelSetLogGo]
  | cons l rest ih =>
    simp only [encodeLabelSet_go, LabelSetEncoder.encode_label,
      LabelSetEncoder.ofText, TextLabelSetEncoder.encode_label]
    rw [encodeLabel_prog_text]
    simpa [labelSetLogGo, LabelSetEncoder.ofText, List.append_assoc] using
      ih (p ++ labelPairLog b l.keyFrags l.valueFrags) false

/-! ## Pipeline lemmas: protobuf backend -/

theorem foldl_append_eq (ks : List String) (k : String) :
    ks.foldl (fun acc s => acc ++ s) k = k ++ ks.foldl (fun acc s => acc ++ s) "" := by
  induction ks generalizing k with
  | nil => simp
  | cons s rest ih =>
    simp only [List.foldl_cons]
    rw [ih (k ++ s), ih ("" ++ s)]
    simp [String.append_assoc]

theorem join_eq_foldl (ks : List String) :
    String.join ks = ks.foldl (fun acc s => acc ++ s) "" := by
  rfl

theorem join_cons_str (s : String) (rest : List String) :
    String.join (s :: rest) = s ++ String.join rest := by
  rw [join_eq_foldl, join_eq_foldl]
  simp only [List.foldl_cons]
  rw [foldl_append_eq rest ("" ++ s)]
  simp [String.append_assoc]

theorem encodeKeyProg_pb (ks : List String) (labels : List PbLabel) (k : String) :
    encodeKeyProg ks (LabelKeyEncoder.ofProtobuf ⟨labels, k⟩) =
      .ok (LabelKeyEncoder.ofProtobuf ⟨labels, k ++ String.join ks⟩) := by
  induction ks generalizing k with
  | nil => simp [encodeKeyProg, String.join]
  | cons s rest ih =>
    simp only [encodeKeyProg, LabelKeyEncoder.write_str, LabelKeyEncoder.ofProtobuf,
      PbLabelKeyEncoder.write_str, Except.map]
    simpa [LabelKeyEncoder.ofProtobuf, join_cons_str, String.append_assoc] using
      ih (k ++ s)

theorem encodeValueProg_pb (vs : List String) (labels : List PbLabel)
    (k v : String) :
    encodeValueProg vs (LabelValueEncoder.ofProtobuf ⟨labels, k, v⟩) =
      .ok (LabelValueEncoder.ofProtobuf ⟨labels, k, v ++ String.join vs⟩) := by
  induction vs generalizing v with
  | nil => simp [encodeValueProg, String.join]
  | cons s rest ih =>
    simp only [encodeValueProg, LabelValueEncoder.write_str,
      LabelValueEncoder.ofProtobuf, PbLabelValueEncoder.write_str, Except.map]
    simpa [LabelValueEncoder.ofProtobuf, join_cons_str, String.append_assoc] using
      ih (v ++ s)

theorem encodeLabel_prog_pb (l : LabelProg) (labels : List PbLabel) :
    encodeLabel_prog l (LabelEncoder.ofProtobuf ⟨labels⟩) =
      .ok (LabelSetEncoder.ofProtobuf ⟨labels ++ [pbRenderLabel l]⟩) := by
  unfold encodeLabel_prog encodeLabel_generic
  simp only [LabelEncoder.encode_label_key, LabelEncoder.ofProtobuf,
    PbLabelEncoder.encode_label_key, Except.map]
  rw [encodeKeyProg_pb]
  simp only [LabelKeyEncoder.encode_label_value, LabelKeyEncoder.ofProtobuf,
    PbLabelKeyEncoder.encode_label_value, Except.map]
  rw [encodeValueProg_pb]
  simp only [LabelValueEncoder.finish, LabelValueEncoder.ofProtobuf,
    PbLabelValueEncoder.finish, Except.map]
  simp [pbRenderLabel]

theorem encodeLabelSet_go_pb (ls : LabelSetProg) (labels : List PbLabel) :
    encodeLabelSet_go encodeLabel_prog ls (LabelSetEncoder.ofProtobuf ⟨labels⟩) =
      .ok (LabelSetEncoder.ofProtobuf ⟨labels ++ pbRenderLabelSet ls⟩) := by
  induction ls generalizing labels with
  | nil => simp [encodeLabelSet_go, pbRenderLabelSet]
  | cons l rest ih =>
    simp only [encodeLabelSet_go, LabelSetEncoder.encode_label,
      LabelSetEncoder.ofProtobuf, PbLabelSetEncoder.encode_label]
    rw [encodeLabel_prog_pb]
    simpa [pbRenderLabelSet, LabelSetEncoder.ofProtobuf, List.append_assoc] using
      ih (labels ++ [pbRenderLabel l])

/-! ## Decimal rendering: properties of `itoaFormat` -/

theorem digitChar_toNat (d : Nat) (h : d < 10) : (digitChar d).toNat = 48 + d := by
  interval_cases d <;> decide

theorem digitChar_isDigit (d : Nat) (h : d < 10) :
    48 ≤ (digitChar d).toNat ∧ (digitChar d).toNat ≤ 57 := by
  interval_cases d <;> decide

theorem digitChar_ne_zeroChar (d : Nat) (h0 : 0 < d) (h : d < 10) :
    digitChar d ≠ '0' := by
  interval_cases d <;> decide

/-- Parse a most-significant-digit-first decimal string back to a number, the
reading direction of the emitted text. -/
def parseDec (s : String) : Nat :=
  s.data.foldl (fun acc c => 10 * acc + (c.toNat - 48)) 0

theorem parse_foldl_digits (L : List Nat) (hL : ∀ d ∈ L, d < 10) (a : Nat) :
    (L.reverse.map digitChar).foldl (fun acc c => 10 * acc + (c.toNat - 48)) a =
      a * 10 ^ L.length + Nat.ofDigits 10 L := by
  induction L generalizing a with
  | nil => simp [Nat.ofDigits]
  | cons d rest ih =>
    have hd : d < 10 := hL d (List.mem_cons_self d rest)
    have hrest : ∀ x ∈ rest, x < 10 := fun x hx => hL x (List.mem_cons_of_mem _ hx)
    simp only [List.reverse_cons, List.map_append, List.map_cons, List.map_nil,
      List.foldl_append, List.foldl_cons, List.foldl_nil]
    rw [ih hrest a, digitChar_toNat d hd]
    simp only [Nat.ofDigits_cons, List.length_cons, pow_succ,
      Nat.add_sub_cancel_left, Nat.cast_id]
    ring

theorem parseDec_itoaFormat (n : Nat) : parseDec (itoaFormat n) = n := by
  by_cases h : n = 0
  · subst h
    rfl
  · rw [itoaFormat, if_neg h]
    show ((Nat.digits 10 n).reverse.map digitChar).foldl
        (fun acc c => 10 * acc + (c.toNat - 48)) 0 = n
    rw [parse_foldl_digits (Nat.digits 10 n)
      (fun d hd => Nat.digits_lt_base (by norm_num) hd) 0]
    simp [Nat.ofDigits_digits]

theorem itoaFormat_digits (n : Nat) :
    ∀ c ∈ (itoaFormat n).data, 48 ≤ c.toNat ∧ c.toNat ≤ 57 := by
  by_cases h : n = 0
  · subst h
    intro c hc
    have : (itoaFormat 0).data = ['0'] := rfl
    rw [this] at hc
    simp at hc
    subst hc
    decide
  · rw [itoaFormat, if_neg h]
    intro c hc
    have hc' : c ∈ (Nat.digits 10 n).reverse.map digitChar := hc
    rcases List.mem_map.mp hc' with ⟨d, hd, rfl⟩
    exact digitChar_isDigit d
      (Nat.digits_lt_base (by norm_num) (List.mem_reverse.mp hd))

theorem itoaFormat_no_leading_zero (n : Nat) (hn : n ≠ 0) :
    (itoaFormat n).data.head? ≠ some '0' := by
  rw [itoaFormat, if_neg hn]
  have hne : Nat.digits 10 n ≠ [] := Nat.digits_ne_nil_iff_ne_zero.mpr hn
  show ((Nat.digits 10 n).reverse.map digitChar).head? ≠ some '0'
  rw [List.head?_map, List.head?_reverse, List.getLast?_eq_getLast _ hne]
  have hlast0 : (Nat.digits 10 n).getLast hne ≠ 0 := Nat.getLast_digit_ne_zero 10 hn
  have hlast10 : (Nat.digits 10 n).getLast hne < 10 :=
    Nat.digits_lt_base (by norm_num) (List.getLast_mem hne)
  simp only [Option.map_some', ne_eq, Option.some.injEq]
  exact digitChar_ne_zeroChar _ (Nat.pos_of_ne_zero hlast0) hlast10

/-! ## Escaping leaves decimal digit strings unchanged -/

theorem escapeChar_digit (c : Char) (h1 : 48 ≤ c.toNat) (h2 : c.toNat ≤ 57) :
    escapeChar c = String.mk [c] := by
  have hb : c ≠ '\\' := by
    intro hc
    subst hc
    revert h2
    decide
  have hq : c ≠ '"' := by
    intro hc
    subst hc
    revert h1
    decide
  have hn : c ≠ '\n' := by
    intro hc
    subst hc
    revert h1
    decide
  simp [escapeChar, hb, hq, hn]

theorem join_map_escape (L : List Char)
    (h : ∀ c ∈ L, 48 ≤ c.toNat ∧ c.toNat ≤ 57) :
    String.join (L.map escapeChar) = String.mk L := by
  induction L with
  | nil => rfl
  | cons c rest ih =>
    simp only [List.map_cons]
    rw [join_cons_str,
      escapeChar_digit c (h c (List.mem_cons_self c rest)).1
        (h c (List.mem_cons_self c rest)).2,
      ih (fun x hx => h x (List.mem_cons_of_mem _ hx))]
    rfl

theorem escapeStr_digits (s : String)
    (h : ∀ c ∈ s.data, 48 ≤ c.toNat ∧ c.toNat ≤ 57) : escapeStr s = s := by
  obtain ⟨L⟩ := s
  exact join_map_escape L h

/-! ## Positional list lemmas for the temporal claims -/

theorem take_len_append {α : Type} (l₁ l₂ : List α) :
    (l₁ ++ l₂).take l₁.length = l₁ := by
  induction l₁ with
  | nil => simp
  | cons a l ih => simp [ih]

theorem get_len_append {α : Type} (l₁ : List α) (m : α) (l₂ : List α) :
    (l₁ ++ m :: l₂)[l₁.length]? = some m := by
  induction l₁ with
  | nil => simp
  | cons a l ih => simpa using ih

theorem drop_len_succ_append {α : Type} (l₁ : List α) (m : α) (l₂ : List α) :
    (l₁ ++ m :: l₂).drop (l₁.length + 1) = l₂ := by
  induction l₁ with
  | nil => rfl
  | cons a l ih => simp [ih]

theorem isEmpty_append_cons {α : Type} (l₁ : List α) (m : α) (l₂ : List α) :
    (l₁ ++ m :: l₂).isEmpty = false := by
  cases l₁ <;> rfl

theorem encodeLabelSet_go_append {α : Type}
    (encL : α → LabelEncoder → FmtResult LabelSetEncoder) (l₁ l₂ : List α)
    (enc : LabelSetEncoder) :
    encodeLabelSet_go encL (l₁ ++ l₂) enc =
      match encodeLabelSet_go encL l₁ enc with
      | .error err => .error err
      | .ok enc' => encodeLabelSet_go encL l₂ enc' := by
  induction l₁ generalizing enc with
  | nil => simp [encodeLabelSet_go]
  | cons l rest ih =>
    simp only [List.cons_append, encodeLabelSet_go]
    cases encL l enc.encode_label with
    | error err => rfl
    | ok enc' => exact ih enc'

/-! ## Claim theorems -/

/-- C1: every façade-level operation of `MetricEncoder` (`encode_counter_f64`,
`encode_counter_u64`, `encode_gauge_f64`, `encode_gauge_i64`, `encode_info`,
`encode_histogram`, `encode_family`), on either active backend, returns
exactly the result of the corresponding backend method applied to the wrapped
backend encoder with the same arguments, re-wrapped into the façade type (the
state-passing image of the borrowed writer); the façade adds no behaviour of
its own. -/
theorem c1_facade_forwards_to_backend :
    (∀ (e : TextMetricEncoder) (v : F64) (ex : Option (Exemplar F64)),
      (MetricEncoder.ofText e).encode_counter_f64 v ex =
        (e.encode_counter_f64 v ex).map MetricEncoder.ofText) ∧
    (∀ (e : PbMetricEncoder) (v : F64) (ex : Option (Exemplar F64)),
      (MetricEncoder.ofProtobuf e).encode_counter_f64 v ex =
        (e.encode_counter_f64 v ex).map MetricEncoder.ofProtobuf) ∧
    (∀ (e : TextMetricEncoder) (v : Nat) (ex : Option (Exemplar Nat)),
      (MetricEncoder.ofText e).encode_counter_u64 v ex =
        (e.encode_counter_u64 v ex).map MetricEncoder.ofText) ∧
    (∀ (e : PbMetricEncoder) (v : Nat) (ex : Option (Exemplar Nat)),
      (MetricEncoder.ofProtobuf e).encode_counter_u64 v ex =
        (e.encode_counter_u64 v ex).map MetricEncoder.ofProtobuf) ∧
    (∀ (e : TextMetricEncoder) (v : Int),
      (MetricEncoder.ofText e).encode_gauge_i64 v =
        (e.encode_gauge_i64 v).map MetricEncoder.ofText) ∧
    (∀ (e : PbMetricEncoder) (v : Int),
      (MetricEncoder.ofProtobuf e).encode_gauge_i64 v =
        (e.encode_gauge_i64 v).map MetricEncoder.ofProtobuf) ∧
    (∀ (e : TextMetricEncoder) (v : F64),
      (MetricEncoder.ofText e).encode_gauge_f64 v =
        (e.encode_gauge_f64 v).map MetricEncoder.ofText) ∧
    (∀ (e : PbMetricEncoder) (v : F64),
      (MetricEncoder.ofProtobuf e).encode_gauge_f64 v =
        (e.encode_gauge_f64 v).map MetricEncoder.ofProtobuf) ∧
    (∀ (e : TextMetricEncoder) (ls : LabelSetProg),
      (MetricEncoder.ofText e).encode_info ls =
        (e.encode_info ls).map MetricEncoder.ofText) ∧
    (∀ (e : PbMetricEncoder) (ls : LabelSetProg),
      (MetricEncoder.ofProtobuf e).encode_info ls =
        (e.encode_info ls).map MetricEncoder.ofProtobuf) ∧
    (∀ (e : TextMetricEncoder) (sum : F64) (count : Nat)
        (buckets : List (F64 × Nat)) (exs : Option (List (Nat × Exemplar F64))),
      (MetricEncoder.ofText e).encode_histogram sum count buckets exs =
        (e.encode_histogram sum count buckets exs).map MetricEncoder.ofText) ∧
    (∀ (e : PbMetricEncoder) (sum : F64) (count : Nat)
        (buckets : List (F64 × Nat)) (exs : Option (List (Nat × Exemplar F64))),
      (MetricEncoder.ofProtobuf e).encode_histogram sum count buckets exs =
        (e.encode_histogram sum count buckets exs).map MetricEncoder.ofProtobuf) ∧
    (∀ (e : TextMetricEncoder) (ls : LabelSetProg),
      (MetricEncoder.ofText e).encode_family ls =
        (e.encode_family ls).map MetricEncoder.ofText) ∧
    (∀ (e : PbMetricEncoder) (ls : LabelSetProg),
      (MetricEncoder.ofProtobuf e).encode_family ls =
        (e.encode_family ls).map MetricEncoder.ofProtobuf) := by
  refine ⟨?_, ?_, ?_, ?_, ?_, ?_, ?_, ?_, ?_, ?_, ?_, ?_, ?_, ?_⟩ <;>
    intros <;> rfl

/-- C3: encoding a (key, value) pair performs exactly the fixed sequence —
produce a key encoder, write the key into it, convert it into a value
encoder, write the value, finish — and nothing else.  On the text backend the
sink receives, in order: the separator (if any), the key fragments, the `="`
conversion marker, the escaped value fragments, the closing quote of `finish`;
on the protobuf backend exactly the one completed pair is appended.  Each
step's error (if any) is returned and stops the sequence. -/
theorem c3_pair_fixed_sequence :
    (∀ (l : LabelProg) (p : List String) (b : Bool),
      encodeLabel_prog l (LabelEncoder.ofText ⟨⟨p, none⟩, b⟩) =
        .ok (LabelSetEncoder.ofText
          ⟨⟨p ++ labelPairLog b l.keyFrags l.valueFrags, none⟩, false⟩)) ∧
    (∀ (l : LabelProg) (labels : List PbLabel),
      encodeLabel_prog l (LabelEncoder.ofProtobuf ⟨labels⟩) =
        .ok (LabelSetEncoder.ofProtobuf ⟨labels ++ [pbRenderLabel l]⟩)) ∧
    (∀ (encK : LabelKeyEncoder → FmtResult LabelKeyEncoder)
        (encV : LabelValueEncoder → FmtResult LabelValueEncoder)
        (le : LabelEncoder) (err : FmtError),
      le.encode_label_key = .error err →
        encodeLabel_generic encK encV le = .error err) ∧
    (∀ (encK : LabelKeyEncoder → FmtResult LabelKeyEncoder)
        (encV : LabelValueEncoder → FmtResult LabelValueEncoder)
        (le : LabelEncoder) (lke : LabelKeyEncoder) (err : FmtError),
      le.encode_label_key = .ok lke → encK lke = .error err →
        encodeLabel_generic encK encV le = .error err) ∧
    (∀ (encK : LabelKeyEncoder → FmtResult LabelKeyEncoder)
        (encV : LabelValueEncoder → FmtResult LabelValueEncoder)
        (le : LabelEncoder) (lke₁ lke₂ : LabelKeyEncoder) (err : FmtError),
      le.encode_label_key = .ok lke₁ → encK lke₁ = .ok lke₂ →
      lke₂.encode_label_value = .error err →
        encodeLabel_generic encK encV le = .error err) ∧
    (∀ (encK : LabelKeyEncoder → FmtResult LabelKeyEncoder)
        (encV : LabelValueEncoder → FmtResult LabelValueEncoder)
        (le : LabelEncoder) (lke₁ lke₂ : LabelKeyEncoder)
        (lve : LabelValueEncoder) (err : FmtError),
      le.encode_label_key = .ok lke₁ → encK lke₁ = .ok lke₂ →
      lke₂.encode_label_value = .ok lve → encV lve = .error err →
        encodeLabel_generic encK encV le = .error err) ∧
    (∀ (encK : LabelKeyEncoder → FmtResult LabelKeyEncoder)
        (encV : LabelValueEncoder → FmtResult LabelValueEncoder)
        (le : LabelEncoder) (lke₁ lke₂ : LabelKeyEncoder)
        (lve₁ lve₂ : LabelValueEncoder) (err : FmtError),
      le.encode_label_key = .ok lke₁ → encK lke₁ = .ok lke₂ →
      lke₂.encode_label_value = .ok lve₁ → encV lve₁ = .ok lve₂ →
      lve₂.finish = .error err →
        encodeLabel_generic encK encV le = .error err) := by
  refine ⟨encodeLabel_prog_text, encodeLabel_prog_pb, ?_, ?_, ?_, ?_, ?_⟩
  · intro encK encV le err h
    unfold encodeLabel_generic
    simp [h]
  · intro encK encV le lke err h1 h2
    unfold encodeLabel_generic
    simp [h1, h2]
  · intro encK encV le lke₁ lke₂ err h1 h2 h3
    unfold encodeLabel_generic
    simp [h1, h2, h3]
  · intro encK encV le lke₁ lke₂ lve err h1 h2 h3 h4
    unfold encodeLabel_generic
    simp [h1, h2, h3, h4]
  · intro encK encV le lke₁ lke₂ lve₁ lve₂ err h1 h2 h3 h4 h5
    unfold encodeLabel_generic
    simp [h1, h2, h3, h4, h5]

/-- Witness for C3: with a sink of zero remaining capacity and a pending
separator, producing the key encoder already fails, and the pair encode
returns that error without attempting the later steps. -/
theorem c3_witness :
    encodeLabel_generic (encodeKeyProg ["k"]) (encodeValueProg ["v"])
      (LabelEncoder.ofText ⟨⟨[], some 0⟩, false⟩) = .error {} :=
  c3_pair_fixed_sequence.2.2.1 (encodeKeyProg ["k"]) (encodeValueProg ["v"])
    (LabelEncoder.ofText ⟨⟨[], some 0⟩, false⟩) {} rfl

/-- C4: encoding any empty label set — the empty slice, the empty `Vec`, the
zero-length array and the unit type — returns `Ok(())` and performs no
operation at all on the label-set encoder (hence on the output sink): the
encoder comes back unchanged, so no empty label block can be emitted. -/
theorem c4_empty_label_set_is_noop {α : Type}
    (encL : α → LabelEncoder → FmtResult LabelSetEncoder) :
    (∀ enc : LabelSetEncoder, encodeLabelSet_slice encL ([] : List α) enc = .ok enc) ∧
    (∀ enc : LabelSetEncoder, encodeLabelSet_vec encL ([] : List α) enc = .ok enc) ∧
    (∀ (a : RustArray α 0) (enc : LabelSetEncoder),
      encodeLabelSet_array encL a enc = .ok enc) ∧
    (∀ enc : LabelSetEncoder, encodeLabelSet_unit () enc = .ok enc) := by
  refine ⟨fun enc => rfl, fun enc => rfl, ?_, fun enc => rfl⟩
  intro a enc
  have hd : a.data = [] := List.length_eq_zero.mp a.len_eq
  simp [encodeLabelSet_array, encodeLabelSet_slice, hd]

/-- C8: the `Box<dyn EncodeMetric>` implementation forwards both `encode` and
`metric_type` to the boxed instance unchanged, with the same encoder argument;
the box adds no behaviour. -/
theorem c8_box_forwards_to_instance (b : BoxedEncodeMetric) (enc : MetricEncoder) :
    b.encode enc = b.deref.encode enc ∧ b.metric_type = b.deref.metric_type :=
  ⟨rfl, rfl⟩

/-- C9: label-set encoding is a deterministic function of the label set and
the starting encoder state, with no hidden state across calls: from a fresh
text block over an unbounded sink the appended fragments are
`labelSetLog ls`, a function of the label set alone (independent of the
sink's prior content), so encoding the same set for two different metrics in
the same family appends identical label output; likewise the protobuf
backend appends exactly `pbRenderLabelSet ls`. -/
theorem c9_label_set_encode_deterministic :
    (∀ (ls : LabelSetProg) (p : List String),
      encodeLabelSet_slice encodeLabel_prog ls
          (LabelSetEncoder.ofText ⟨⟨p, none⟩, true⟩) =
        .ok (LabelSetEncoder.ofText ⟨⟨p ++ labelSetLog ls, none⟩, ls.isEmpty⟩)) ∧
    (∀ (ls : LabelSetProg) (labels : List PbLabel),
      encodeLabelSet_slice encodeLabel_prog ls
          (LabelSetEncoder.ofProtobuf ⟨labels⟩) =
        .ok (LabelSetEncoder.ofProtobuf ⟨labels ++ pbRenderLabelSet ls⟩)) := by
  constructor
  · intro ls p
    cases ls with
    | nil => simp [encodeLabelSet_slice, labelSetLog, labelSetLogGo]
    | cons l rest =>
      unfold encodeLabelSet_slice
      simp only [List.isEmpty_cons, Bool.false_eq_true, if_false]
      rw [encodeLabelSet_go_text]
      simp [labelSetLog]
  · intro ls labels
    cases ls with
    | nil => simp [encodeLabelSet_slice, pbRenderLabelSet]
    | cons l rest =>
      unfold encodeLabelSet_slice
      simp only [List.isEmpty_cons, Bool.false_eq_true, if_false]
      rw [encodeLabelSet_go_pb]

/-- C2: in every completed encoding trace produced through the public encoder
API for one label (any key writer, any value writer), no value fragment
reaches the sink before the key has been completed into a value encoder: the
fragments up to the completion marker are exactly the separator and key
fragments, position `((sep) ++ ks).length` is the `="` marker written by
`encode_label_value` — the call that consumes the key encoder — and
everything after it is value fragments closed off by the one `finish` write
that releases the value encoder, after which nothing more is written for this
label (the trace ends there). -/
theorem c2_value_write_after_key_completion (ks vs : List String)
    (p : List String) (b : Bool) (out : LabelSetEncoder)
    (h : encodeLabel_generic (encodeKeyProg ks) (encodeValueProg vs)
        (LabelEncoder.ofText ⟨⟨p, none⟩, b⟩) = .ok out) :
    ∃ L, out = LabelSetEncoder.ofText ⟨⟨p ++ L, none⟩, false⟩ ∧
      L.take ((if b then ([] : List String) else [","]) ++ ks).length =
        (if b then [] else [","]) ++ ks ∧
      L[((if b then ([] : List String) else [","]) ++ ks).length]? = some "=\"" ∧
      L.drop (((if b then ([] : List String) else [","]) ++ ks).length + 1) =
        vs.map escapeStr ++ ["\""] := by
  have hp : encodeLabel_generic (encodeKeyProg ks) (encodeValueProg vs)
      (LabelEncoder.ofText ⟨⟨p, none⟩, b⟩) =
      .ok (LabelSetEncoder.ofText ⟨⟨p ++ labelPairLog b ks vs, none⟩, false⟩) :=
    encodeLabel_prog_text ⟨ks, vs⟩ p b
  rw [hp] at h
  have hout : out =
      LabelSetEncoder.ofText ⟨⟨p ++ labelPairLog b ks vs, none⟩, false⟩ :=
    (Except.ok.inj h).symm
  have hshape : labelPairLog b ks vs =
      ((if b then ([] : List String) else [","]) ++ ks) ++
        ("=\"" :: (vs.map escapeStr ++ ["\""])) := by
    simp [labelPairLog]
  refine ⟨labelPairLog b ks vs, hout, ?_, ?_, ?_⟩
  · rw [hshape]
    exact take_len_append _ _
  · rw [hshape]
    exact get_len_append _ _ _
  · rw [hshape]
    exact drop_len_succ_append _ _ _

/-- Witness for C2 at the label `method="GET"`, first of its block. -/
theorem c2_witness :
    ∃ L, LabelSetEncoder.ofText ⟨⟨["method", "=\"", "GET", "\""], none⟩, false⟩ =
        LabelSetEncoder.ofText ⟨⟨[] ++ L, none⟩, false⟩ ∧
      L.take ((if true then ([] : List String) else [","]) ++ ["method"]).length =
        (if true then [] else [","]) ++ ["method"] ∧
      L[((if true then ([] : List String) else [","]) ++ ["method"]).length]? =
        some "=\"" ∧
      L.drop (((if true then ([] : List String) else [","]) ++ ["method"]).length + 1) =
        ["GET"].map escapeStr ++ ["\""] :=
  c2_value_write_after_key_completion ["method"] ["GET"] [] true _ rfl

/-- C6: for a label set given as a slice, if encoding one label fails, the
slice implementation returns that error at once: the outcome is the error
itself (no distinct partial-success value), and it is entirely independent of
whatever labels follow the failing one — they are never attempted. -/
theorem c6_first_error_aborts_slice {α : Type}
    (encL : α → LabelEncoder → FmtResult LabelSetEncoder)
    (pre : List α) (bad : α) (post post' : List α) (enc enc₁ : LabelSetEncoder)
    (err : FmtError)
    (hpre : encodeLabelSet_go encL pre enc = .ok enc₁)
    (hbad : encL bad enc₁.encode_label = .error err) :
    encodeLabelSet_slice encL (pre ++ bad :: post) enc = .error err ∧
    encodeLabelSet_slice encL (pre ++ bad :: post) enc =
      encodeLabelSet_slice encL (pre ++ bad :: post') enc := by
  have key : ∀ post₀ : List α,
      encodeLabelSet_slice encL (pre ++ bad :: post₀) enc = .error err := by
    intro post₀
    unfold encodeLabelSet_slice
    rw [isEmpty_append_cons]
    simp only [Bool.false_eq_true, if_false]
    rw [encodeLabelSet_go_append, hpre]
    simp only [encodeLabelSet_go, hbad]
  exact ⟨key post, (key post).trans (key post').symm⟩

/-- Witness for C6: a zero-capacity sink makes the first label fail; the
result is the error, identical with and without a second label present. -/
theorem c6_witness :
    encodeLabelSet_slice encodeLabel_prog
        ([] ++ (⟨["k"], ["v"]⟩ : LabelProg) :: [⟨["x"], ["y"]⟩])
        (LabelSetEncoder.ofText ⟨⟨[], some 0⟩, true⟩) = .error {} ∧
    encodeLabelSet_slice encodeLabel_prog
        ([] ++ (⟨["k"], ["v"]⟩ : LabelProg) :: [⟨["x"], ["y"]⟩])
        (LabelSetEncoder.ofText ⟨⟨[], some 0⟩, true⟩) =
      encodeLabelSet_slice encodeLabel_prog
        ([] ++ (⟨["k"], ["v"]⟩ : LabelProg) :: [])
        (LabelSetEncoder.ofText ⟨⟨[], some 0⟩, true⟩) :=
  c6_first_error_aborts_slice encodeLabel_prog [] ⟨["k"], ["v"]⟩ [⟨["x"], ["y"]⟩]
    [] (LabelSetEncoder.ofText ⟨⟨[], some 0⟩, true⟩) _ {} rfl rfl

/-- C7: encoding a `u64` as a label value writes exactly the language-neutral
base-10 decimal representation: on the text backend one fragment equal to
`itoaFormat v` reaches the sink unaltered (digits pass escaping unchanged),
on the protobuf backend the value buffer is extended by exactly that text;
the text consists only of decimal digit characters (so no sign and no
grouping separator), has no leading zero unless the value is zero itself, and
parses back to the original value. -/
theorem c7_u64_decimal_rendering (v : Nat) (_hv : v < 2 ^ 64) :
    (∀ p : List String,
      encodeLabelValue_u64 v (LabelValueEncoder.ofText ⟨⟨p, none⟩⟩) =
        .ok (LabelValueEncoder.ofText ⟨⟨p ++ [itoaFormat v], none⟩⟩)) ∧
    (∀ (labels : List PbLabel) (k val : String),
      encodeLabelValue_u64 v (LabelValueEncoder.ofProtobuf ⟨labels, k, val⟩) =
        .ok (LabelValueEncoder.ofProtobuf ⟨labels, k, val ++ itoaFormat v⟩)) ∧
    (∀ c ∈ (itoaFormat v).data, 48 ≤ c.toNat ∧ c.toNat ≤ 57) ∧
    (v ≠ 0 → (itoaFormat v).data.head? ≠ some '0') ∧
    parseDec (itoaFormat v) = v := by
  refine ⟨?_, ?_, itoaFormat_digits v, fun h => itoaFormat_no_leading_zero v h,
    parseDec_itoaFormat v⟩
  · intro p
    simp only [encodeLabelValue_u64, LabelValueEncoder.write_str,
      LabelValueEncoder.ofText, TextLabelValueEncoder.write_str,
      TextWriter.write_str, Except.map]
    rw [escapeStr_digits _ (itoaFormat_digits v)]
  · intro labels k val
    rfl

/-- Witness for C7 at the value 1023. -/
theorem c7_witness :
    1023 < 2 ^ 64 ∧ parseDec (itoaFormat 1023) = 1023 :=
  ⟨by norm_num, (c7_u64_decimal_rendering 1023 (by norm_num)).2.2.2.2⟩

/-- C10: every child encoder produced from a façade wraps the same backend
family as its parent: the nested `MetricEncoder` returned by `encode_family`,
the `LabelEncoder` from `encode_label`, the `LabelKeyEncoder` from
`encode_label_key` and the `LabelValueEncoder` from `encode_label_value` all
carry their parent's backend tag, so the backend never changes within one
encode call. -/
theorem c10_backend_variant_preserved :
    (∀ (m : MetricEncoder) (ls : LabelSetProg) (m' : MetricEncoder),
      m.encode_family ls = .ok m' → m'.backend = m.backend) ∧
    (∀ e : LabelSetEncoder, e.encode_label.backend = e.backend) ∧
    (∀ (e : LabelEncoder) (k : LabelKeyEncoder),
      e.encode_label_key = .ok k → k.backend = e.backend) ∧
    (∀ (k : LabelKeyEncoder) (ve : LabelValueEncoder),
      k.encode_label_value = .ok ve → ve.backend = k.backend) := by
  refine ⟨?_, ?_, ?_, ?_⟩
  · intro m ls m' h
    obtain ⟨inner⟩ := m
    cases inner with
    | text e =>
      simp only [MetricEncoder.encode_family] at h
      cases hfe : TextMetricEncoder.encode_family e ls with
      | error err =>
        rw [hfe] at h
        simp [Except.map] at h
      | ok e' =>
        rw [hfe] at h
        simp only [Except.map, Except.ok.injEq] at h
        subst h
        rfl
    | protobuf e =>
      simp only [MetricEncoder.encode_family] at h
      cases hfe : PbMetricEncoder.encode_family e ls with
      | error err =>
        rw [hfe] at h
        simp [Except.map] at h
      | ok e' =>
        rw [hfe] at h
        simp only [Except.map, Except.ok.injEq] at h
        subst h
        rfl
  · intro e
    obtain ⟨inner⟩ := e
    cases inner <;> rfl
  · intro e k h
    obtain ⟨inner⟩ := e
    cases inner with
    | text te =>
      simp only [LabelEncoder.encode_label_key] at h
      cases hk : te.encode_label_key with
      | error err =>
        rw [hk] at h
        simp [Except.map] at h
      | ok tk =>
        rw [hk] at h
        simp only [Except.map, Except.ok.injEq] at h
        subst h
        rfl
    | protobuf pe =>
      simp only [LabelEncoder.encode_label_key] at h
      cases hk : pe.encode_label_key with
      | error err =>
        rw [hk] at h
        simp [Except.map] at h
      | ok pk =>
        rw [hk] at h
        simp only [Except.map, Except.ok.injEq] at h
        subst h
        rfl
  · intro k ve h
    obtain ⟨inner⟩ := k
    cases inner with
    | text tk =>
      simp only [LabelKeyEncoder.encode_label_value] at h
      cases hk : tk.encode_label_value with
      | error err =>
        rw [hk] at h
        simp [Except.map] at h
      | ok tv =>
        rw [hk] at h
        simp only [Except.map, Except.ok.injEq] at h
        subst h
        rfl
    | protobuf pk =>
      simp only [LabelKeyEncoder.encode_label_value] at h
      cases hk : pk.encode_label_value with
      | error err =>
        rw [hk] at h
        simp [Except.map] at h
      | ok pv =>
        rw [hk] at h
        simp only [Except.map, Except.ok.injEq] at h
        subst h
        rfl

/-- Witness for C10: a concrete `encode_family` call on the text backend
returns a child carrying the text backend tag. -/
theorem c10_witness :
    (MetricEncoder.ofText ⟨⟨[], none⟩, "m", []⟩).encode_family [] =
        .ok (MetricEncoder.ofText ⟨⟨[], none⟩, "m", []⟩) ∧
    (MetricEncoder.ofText ⟨⟨[], none⟩, "m", []⟩).backend =
      (MetricEncoder.ofText ⟨⟨[], none⟩, "m", []⟩).backend :=
  ⟨rfl, c10_backend_variant_preserved.1 (MetricEncoder.ofText ⟨⟨[], none⟩, "m", []⟩)
    [] (MetricEncoder.ofText ⟨⟨[], none⟩, "m", []⟩) rfl⟩

end PromClient
